import Mathlib

set_option maxHeartbeats 1000000
set_option maxRecDepth 100000

/-!
Shallow embedding of the Boots to Beats app (src/app.py) and proofs of the
specification's testable properties.  The embedded pieces are:

* `extract_json_block` — locating a JSON object substring inside free text
  (first left brace through last right brace, failing otherwise);
* `split_choreographies` — partitioning a choreography list into
  dedicated / compatible / other with the fallback reclassification
  heuristic and the final per-group trimming;
* `build_prompt` — the pure prompt-builder string function.

Python strings are modelled as Lean `String` (a wrapper around `List Char`
in this toolchain), Python `None`-able values as `Option`, raised
exceptions as `Option`/failure results.
-/

/-- Left curly brace character (code point 123), written via its code
point. -/
def lbrace : Char := Char.ofNat 123

/-- Right curly brace character (code point 125). -/
def rbrace : Char := Char.ofNat 125

/-- Index of the first occurrence of `c` in the list, as Python
`str.find` (which returns `-1`, here `none`, when absent). -/
def firstIdxOf (c : Char) : List Char → Option Nat
  | [] => none
  | a :: as => if a = c then some 0 else (firstIdxOf c as).map (· + 1)

/-- Index of the last occurrence of `c` in the list, as Python
`str.rfind` (which returns `-1`, here `none`, when absent). -/
def lastIdxOf (c : Char) : List Char → Option Nat
  | [] => none
  | a :: as =>
    match lastIdxOf c as with
    | some j => some (j + 1)
    | none => if a = c then some 0 else none

/-- Embeds `extract_json_block` of src/app.py (lines 229-234):
`start = s.find(lbrace); end = s.rfind(rbrace); raise when start == -1 or
end == -1 or end <= start; return s[start : end + 1]`.  The raised
`ValueError` is modelled as `none`. -/
def extract_json_block (s : String) : Option String :=
  match firstIdxOf lbrace s.data, lastIdxOf rbrace s.data with
  | some st, some en =>
    if en ≤ st then none
    else some (String.mk ((s.data.drop st).take (en + 1 - st)))
  | _, _ => none

/-- A successful `firstIdxOf` returns an index holding `c` such that no
earlier index holds `c`. -/
theorem firstIdxOf_get (c : Char) :
    ∀ (l : List Char) (i : Nat), firstIdxOf c l = some i →
      l.get? i = some c ∧ ∀ i', i' < i → l.get? i' ≠ some c := by
  intro l
  induction l with
  | nil => intro i h; simp [firstIdxOf] at h
  | cons a as ih =>
    intro i h
    by_cases hac : a = c
    · simp only [firstIdxOf, if_pos hac] at h
      cases h
      subst hac
      exact ⟨rfl, by intro i' h'; omega⟩
    · simp only [firstIdxOf, if_neg hac, Option.map_eq_some'] at h
      obtain ⟨j, hj, rfl⟩ := h
      obtain ⟨h1, h2⟩ := ih j hj
      refine ⟨h1, ?_⟩
      intro i' hi'
      cases i' with
      | zero =>
        simp only [List.get?_cons_zero]
        intro hh
        exact hac (by injection hh)
      | succ k => exact h2 k (by omega)

/-- Converse of `firstIdxOf_get`: an index holding `c` with no earlier
occurrence is the result of `firstIdxOf`. -/
theorem firstIdxOf_of_get (c : Char) :
    ∀ (l : List Char) (i : Nat), l.get? i = some c →
      (∀ i', i' < i → l.get? i' ≠ some c) → firstIdxOf c l = some i := by
  intro l
  induction l with
  | nil => intro i h _; simp at h
  | cons a as ih =>
    intro i h hmin
    by_cases hac : a = c
    · cases i with
      | zero => simp [firstIdxOf, hac]
      | succ k =>
        exact absurd (show (a :: as).get? 0 = some c by simpa using hac)
          (hmin 0 (by omega))
    · cases i with
      | zero =>
        exact absurd (show a = c by simpa using h) hac
      | succ k =>
        have hk := ih k (by simpa using h)
          (fun i' hi' => by
            have := hmin (i' + 1) (by omega)
            simpa using this)
        simp [firstIdxOf, if_neg hac, hk]

/-- `firstIdxOf` fails exactly when `c` does not occur. -/
theorem firstIdxOf_eq_none (c : Char) :
    ∀ l : List Char, firstIdxOf c l = none ↔ c ∉ l := by
  intro l
  induction l with
  | nil => simp [firstIdxOf]
  | cons a as ih =>
    by_cases hac : a = c
    · constructor
      · intro h; simp [firstIdxOf, hac] at h
      · intro h; exact absurd (by simp [hac]) h
    · constructor
      · intro h
        simp only [firstIdxOf, if_neg hac, Option.map_eq_none'] at h
        simp only [List.mem_cons, not_or]
        exact ⟨fun hh => hac hh.symm, ih.mp h⟩
      · intro h
        simp only [List.mem_cons, not_or] at h
        simp [firstIdxOf, if_neg hac, Option.map_eq_none', ih.mpr h.2]

/-- `lastIdxOf` fails exactly when `c` does not occur. -/
theorem lastIdxOf_eq_none (c : Char) :
    ∀ l : List Char, lastIdxOf c l = none ↔ c ∉ l := by
  intro l
  induction l with
  | nil => simp [lastIdxOf]
  | cons a as ih =>
    constructor
    · intro h
      unfold lastIdxOf at h
      cases hr : lastIdxOf c as with
      | some j0 => rw [hr] at h; cases h
      | none =>
        rw [hr] at h
        by_cases hac : a = c
        · rw [if_pos hac] at h; cases h
        · rw [if_neg hac] at h
          simp only [List.mem_cons, not_or]
          exact ⟨fun hh => hac hh.symm, ih.mp hr⟩
    · intro h
      simp only [List.mem_cons, not_or] at h
      unfold lastIdxOf
      rw [ih.mpr h.2, if_neg (fun hh => h.1 hh.symm)]

/-- A successful `lastIdxOf` returns an index holding `c` such that no
later index holds `c`. -/
theorem lastIdxOf_get (c : Char) :
    ∀ (l : List Char) (j : Nat), lastIdxOf c l = some j →
      l.get? j = some c ∧ ∀ j', j < j' → l.get? j' ≠ some c := by
  intro l
  induction l with
  | nil => intro j h; simp [lastIdxOf] at h
  | cons a as ih =>
    intro j h
    unfold lastIdxOf at h
    cases hr : lastIdxOf c as with
    | some j0 =>
      rw [hr] at h
      cases h
      obtain ⟨h1, h2⟩ := ih j0 hr
      refine ⟨by simpa using h1, ?_⟩
      intro j' hj'
      cases j' with
      | zero => omega
      | succ k => simpa using h2 k (by omega)
    | none =>
      rw [hr] at h
      by_cases hac : a = c
      · rw [if_pos hac] at h
        cases h
        refine ⟨by simpa using hac, ?_⟩
        intro j' hj'
        cases j' with
        | zero => omega
        | succ k =>
          have hnot : c ∉ as := (lastIdxOf_eq_none c as).mp hr
          simp only [List.get?_cons_succ]
          intro hget
          exact hnot (List.get?_mem hget)
      · rw [if_neg hac] at h
        cases h

/-- Converse of `lastIdxOf_get`, with the no-later-occurrence condition
only required inside the list's range. -/
theorem lastIdxOf_of_get (c : Char) :
    ∀ (l : List Char) (j : Nat), l.get? j = some c →
      (∀ j', j' < l.length → j < j' → l.get? j' ≠ some c) →
      lastIdxOf c l = some j := by
  intro l
  induction l with
  | nil => intro j h _; simp at h
  | cons a as ih =>
    intro j h hmax
    cases j with
    | zero =>
      have hac : a = c := by simpa using h
      have hnot : c ∉ as := by
        intro hmem
        obtain ⟨k, hget⟩ := List.mem_iff_get?.mp hmem
        obtain ⟨hlt, _⟩ := List.get?_eq_some.mp hget
        exact hmax (k + 1) (by simpa using Nat.succ_lt_succ hlt) (by omega)
          (by simpa using hget)
      unfold lastIdxOf
      rw [(lastIdxOf_eq_none c as).mpr hnot, if_pos hac]
    | succ k =>
      have hk := ih k (by simpa using h)
        (fun j' hj' hkj' => by
          have := hmax (j' + 1) (by simpa using Nat.succ_lt_succ hj') (by omega)
          simpa using this)
      unfold lastIdxOf
      rw [hk]

/-- Unfolding equation for `extract_json_block` when both brace searches
succeed. -/
theorem extract_json_block_eq_some (s : String) (st en : Nat)
    (hf : firstIdxOf lbrace s.data = some st)
    (hl : lastIdxOf rbrace s.data = some en) :
    extract_json_block s =
      if en ≤ st then none
      else some (String.mk ((s.data.drop st).take (en + 1 - st))) := by
  unfold extract_json_block
  rw [hf, hl]

/-- C3: for every string `s`, when `s` contains a left brace and a right
brace and the last right brace comes strictly after the first left brace,
`extract_json_block` returns exactly the substring from the first left
brace through the last right brace inclusive; in every other case (no
left brace, no right brace, or last right brace at or before the first
left brace) it fails. -/
theorem extract_json_block_spec (s : String) :
    (∀ i j : Nat,
      s.data.get? i = some lbrace →
      (∀ i', i' < i → s.data.get? i' ≠ some lbrace) →
      s.data.get? j = some rbrace →
      (∀ j', j' < s.data.length → j < j' → s.data.get? j' ≠ some rbrace) →
      (if i < j then
          extract_json_block s = some (String.mk ((s.data.drop i).take (j + 1 - i)))
        else extract_json_block s = none))
    ∧ ((lbrace ∉ s.data ∨ rbrace ∉ s.data) → extract_json_block s = none) := by
  constructor
  · intro i j h1 h2 h3 h4
    have hf := firstIdxOf_of_get lbrace s.data i h1 h2
    have hl := lastIdxOf_of_get rbrace s.data j h3 h4
    have heq := extract_json_block_eq_some s i j hf hl
    by_cases hij : i < j
    · rw [if_pos hij, heq, if_neg (by omega)]
    · rw [if_neg hij, heq, if_pos (by omega)]
  · intro h
    unfold extract_json_block
    rcases h with h | h
    · rw [(firstIdxOf_eq_none lbrace s.data).mpr h]
    · rw [(lastIdxOf_eq_none rbrace s.data).mpr h]
      cases firstIdxOf lbrace s.data <;> rfl

/-- Witness for C3 on the concrete input `"a{b}"`: extraction returns
`"{b}"`. -/
theorem extract_json_block_spec_witness :
    extract_json_block (String.mk ['a', lbrace, 'b', rbrace]) =
      some (String.mk [lbrace, 'b', rbrace]) := by
  have h := (extract_json_block_spec (String.mk ['a', lbrace, 'b', rbrace])).1
    1 3 (by decide)
    (by decide)
    (by decide)
    (by intro j' hj' hlt; exact absurd (show j' < 4 from hj') (by omega))
  simpa using h

/-- C4: `extract_json_block` is idempotent — whenever it succeeds with
result `r`, running it again on `r` succeeds and returns `r`. -/
theorem extract_json_block_idem (s r : String)
    (h : extract_json_block s = some r) : extract_json_block r = some r := by
  cases hf : firstIdxOf lbrace s.data with
  | none =>
    have hnone : extract_json_block s = none := by
      unfold extract_json_block
      rw [hf]
    rw [hnone] at h
    cases h
  | some st =>
    cases hl : lastIdxOf rbrace s.data with
    | none =>
      have hnone : extract_json_block s = none := by
        unfold extract_json_block
        rw [hf, hl]
      rw [hnone] at h
      cases h
    | some en =>
      rw [extract_json_block_eq_some s st en hf hl] at h
      by_cases hle : en ≤ st
      · rw [if_pos hle] at h; cases h
      · rw [if_neg hle] at h
        have hlt : st < en := by omega
        obtain ⟨hst, _⟩ := firstIdxOf_get lbrace s.data st hf
        obtain ⟨hen, _⟩ := lastIdxOf_get rbrace s.data en hl
        have henlen : en < s.data.length := (List.get?_eq_some.mp hen).1
        set sl := (s.data.drop st).take (en + 1 - st) with hsl
        have hr : r = String.mk sl := by
          injection h with h'
          exact h'.symm
        have hlen : sl.length = en + 1 - st := by
          rw [hsl, List.length_take, List.length_drop]
          omega
        have hget0 : sl.get? 0 = some lbrace := by
          rw [hsl, List.get?_take (show 0 < en + 1 - st by omega)]
          rw [List.get?_eq_getElem?, List.getElem?_drop, ← List.get?_eq_getElem?]
          simpa using hst
        have hgetlast : sl.get? (en - st) = some rbrace := by
          rw [hsl, List.get?_take (show en - st < en + 1 - st by omega)]
          rw [List.get?_eq_getElem?, List.getElem?_drop, ← List.get?_eq_getElem?,
            show st + (en - st) = en by omega]
          exact hen
        have hf' : firstIdxOf lbrace ((String.mk sl).data) = some 0 :=
          firstIdxOf_of_get lbrace sl 0 hget0 (fun i' hi' => by omega)
        have hl' : lastIdxOf rbrace ((String.mk sl).data) = some (en - st) :=
          lastIdxOf_of_get rbrace sl (en - st) hgetlast
            (fun j' hj' hlt' => by rw [hlen] at hj'; omega)
        rw [hr, extract_json_block_eq_some (String.mk sl) 0 (en - st) hf' hl',
          if_neg (by omega)]
        congr 2
        rw [List.drop_zero, show en - st + 1 - 0 = sl.length by omega,
          List.take_length]

/-- Witness for C4 on the concrete input `"a{x}"`: the extracted block
`"{x}"` re-extracts to itself. -/
theorem extract_json_block_idem_witness :
    extract_json_block (String.mk [lbrace, 'x', rbrace]) =
      some (String.mk [lbrace, 'x', rbrace]) :=
  extract_json_block_idem (String.mk ['a', lbrace, 'x', rbrace])
    (String.mk [lbrace, 'x', rbrace]) (by decide)

/-- One entry of the JSON payload's `choreographies` array (spec section
3, ChoreographyMatch), with the fields the app reads; a missing JSON key
is `none`. -/
structure Choreo where
  rank : Option Int
  name : Option String
  estimated_level : Option String
  estimated_region : Option String
  typ : Option String
  fit_type : Option String
  url : Option String
  extra_sources : List String
  reason : Option String
deriving DecidableEq

/-- Python `str.lower` (ASCII case folding), applied characterwise. -/
def pyLower (s : String) : String := String.mk (s.data.map Char.toLower)

/-- Python substring containment `needle in hay`, on character lists. -/
def containsSub : List Char → List Char → Bool
  | [], needle => needle.isEmpty
  | a :: t, needle => needle.isPrefixOf (a :: t) || containsSub t needle

/-- Python `needle in hay` for strings. -/
def pyIn (needle hay : String) : Bool := containsSub hay.data needle.data

/-- The lower-cased name-plus-reason text of one item, as built on
src/app.py lines 386-389: `((c.get("name") or "") + " " +
(c.get("reason") or "")).lower()`. -/
def nameReasonText (c : Choreo) : String :=
  pyLower ((c.name.getD "") ++ " " ++ (c.reason.getD ""))

/-- Overwrite of an item's `fit_type` by the fallback heuristic
(src/app.py line 404). -/
def setFit (c : Choreo) : Choreo :=
  { c with fit_type := some "compatible_generic" }

/-- First classification pass of `split_choreographies` (src/app.py lines
371-379): partition the list by its declared `fit_type`, keeping order. -/
def firstPass : List Choreo → List Choreo × List Choreo × List Choreo
  | [] => ([], [], [])
  | c :: cs =>
    let r := firstPass cs
    if c.fit_type = some "dedicated_for_song" then (c :: r.1, r.2.1, r.2.2)
    else if c.fit_type = some "compatible_generic" then (r.1, c :: r.2.1, r.2.2)
    else (r.1, r.2.1, c :: r.2.2)

/-- The candidate-moving loop of the fallback heuristic (src/app.py lines
396-405): move candidates into `compatible` until the cap is reached,
removing each moved one from `dedicated` (else from `other`; Python
`list.remove` removes the first occurrence) and overwriting its
`fit_type`. -/
def moveLoop (max_per_group : Nat) :
    List Choreo → List Choreo → List Choreo → List Choreo →
    List Choreo × List Choreo × List Choreo
  | [], ded, comp, oth => (ded, comp, oth)
  | c :: cands, ded, comp, oth =>
    if comp.length ≥ max_per_group then (ded, comp, oth)
    else if c ∈ ded then
      moveLoop max_per_group cands (ded.erase c) (comp ++ [setFit c]) oth
    else if c ∈ oth then
      moveLoop max_per_group cands ded (comp ++ [setFit c]) (oth.erase c)
    else moveLoop max_per_group cands ded (comp ++ [setFit c]) oth

/-- Final trimming of one group (src/app.py lines 407-411): truncate only
when the group exceeds the cap. -/
def trimGroup (l : List Choreo) (m : Nat) : List Choreo :=
  if l.length > m then l.take m else l

/-- Classification with the fallback heuristic but before the final
trimming (src/app.py lines 365-405).  The fallback runs only when the
first pass produced no compatible item and the lower-cased song title is
non-empty; its candidates are the dedicated items whose name-and-reason
text does not contain the lower-cased title, followed by all items of the
other group. -/
def splitPre (choreos : List Choreo) (song_title : String)
    (max_per_group : Nat) : List Choreo × List Choreo × List Choreo :=
  let song_lower := pyLower song_title
  let fp := firstPass choreos
  if fp.2.1 = [] ∧ song_lower ≠ "" then
    let candidates :=
      (fp.1.filter fun c => !(pyIn song_lower (nameReasonText c))) ++ fp.2.2
    moveLoop max_per_group candidates fp.1 fp.2.1 fp.2.2
  else fp

/-- Embeds `split_choreographies` of src/app.py (lines 349-413):
classification, fallback heuristic, then trimming of the dedicated and
compatible groups (the other group is returned as is). -/
def split_choreographies (choreos : List Choreo) (song_title : String)
    (max_per_group : Nat) : List Choreo × List Choreo × List Choreo :=
  let r := splitPre choreos song_title max_per_group
  (trimGroup r.1 max_per_group, trimGroup r.2.1 max_per_group, r.2.2)

/-- Trimming a group is the same as truncating it. -/
theorem trimGroup_eq_take (l : List Choreo) (m : Nat) :
    trimGroup l m = l.take m := by
  unfold trimGroup
  by_cases h : l.length > m
  · rw [if_pos h]
  · rw [if_neg h, List.take_of_length_le (by omega)]

/-- A trimmed group never exceeds the cap. -/
theorem trimGroup_length_le (l : List Choreo) (m : Nat) :
    (trimGroup l m).length ≤ m := by
  rw [trimGroup_eq_take, List.length_take]
  omega

/-- Unfolding of `split_choreographies` into its two stages. -/
theorem split_choreographies_eq (choreos : List Choreo) (t : String)
    (m : Nat) :
    split_choreographies choreos t m =
      (trimGroup (splitPre choreos t m).1 m,
       trimGroup (splitPre choreos t m).2.1 m,
       (splitPre choreos t m).2.2) := rfl

/-- Unfolding of `splitPre` into the first pass and the guarded fallback. -/
theorem splitPre_eq (choreos : List Choreo) (t : String) (m : Nat) :
    splitPre choreos t m =
      if (firstPass choreos).2.1 = [] ∧ pyLower t ≠ "" then
        moveLoop m
          (((firstPass choreos).1.filter fun c =>
              !(pyIn (pyLower t) (nameReasonText c))) ++ (firstPass choreos).2.2)
          (firstPass choreos).1 (firstPass choreos).2.1 (firstPass choreos).2.2
      else firstPass choreos := rfl

/-- The first pass is the triple of fit-type filters, in input order. -/
theorem firstPass_eq_filter (cs : List Choreo) :
    firstPass cs =
      (cs.filter fun c => c.fit_type == some "dedicated_for_song",
       cs.filter fun c => c.fit_type == some "compatible_generic",
       cs.filter fun c => !(c.fit_type == some "dedicated_for_song") &&
         !(c.fit_type == some "compatible_generic")) := by
  induction cs with
  | nil => rfl
  | cons c cs ih =>
    by_cases h1 : c.fit_type = some "dedicated_for_song"
    · simp [firstPass, List.filter_cons, h1, ih]
    · by_cases h2 : c.fit_type = some "compatible_generic"
      · simp [firstPass, List.filter_cons, h1, h2, ih]
      · simp [firstPass, List.filter_cons, h1, h2, ih]

/-- The three first-pass groups partition the input: the lengths sum to
the input length. -/
theorem firstPass_sum (cs : List Choreo) :
    (firstPass cs).1.length + (firstPass cs).2.1.length +
      (firstPass cs).2.2.length = cs.length := by
  induction cs with
  | nil => rfl
  | cons c cs ih =>
    by_cases h1 : c.fit_type = some "dedicated_for_song"
    · simp only [firstPass, if_pos h1, List.length_cons]
      omega
    · by_cases h2 : c.fit_type = some "compatible_generic"
      · simp only [firstPass, if_neg h1, if_pos h2, List.length_cons]
        omega
      · simp only [firstPass, if_neg h1, if_neg h2, List.length_cons]
        omega

/-- C1 counterexample: three items of undeclared fit type with song title
Zed and cap 1 leave the returned `other` group at length 2, exceeding the
cap: trimming is not applied to the `other` group. -/
theorem other_group_exceeds_cap :
    ¬ (((split_choreographies
        [⟨some 1, some "Alpha", none, none, none, none, none, [], none⟩,
         ⟨some 2, some "Beta", none, none, none, none, none, [], none⟩,
         ⟨some 3, some "Gamma", none, none, none, none, none, [], none⟩]
        "Zed" 1).2.2).length ≤ 1) := by decide

/-- C1 (amended): after processing, the dedicated and the compatible
group each have length at most the cap `k`, for every input list, song
title and cap; the `other` group is returned untrimmed and may exceed the
cap. -/
theorem dedicated_compatible_groups_capped (choreos : List Choreo)
    (song_title : String) (k : Nat) :
    ((split_choreographies choreos song_title k).1).length ≤ k ∧
    ((split_choreographies choreos song_title k).2.1).length ≤ k := by
  rw [split_choreographies_eq]
  exact ⟨trimGroup_length_le _ _, trimGroup_length_le _ _⟩

/-- C6: when the input list declares at least one `compatible_generic`
item, the fallback heuristic is skipped entirely: the returned groups are
exactly the first-pass fit-type partition, with dedicated and compatible
truncated to the cap and no item reclassified out of dedicated or other. -/
theorem fallback_skipped_when_compatible_declared (choreos : List Choreo)
    (song_title : String) (k : Nat)
    (h : ∃ c ∈ choreos, c.fit_type = some "compatible_generic") :
    split_choreographies choreos song_title k =
      ((choreos.filter fun c => c.fit_type == some "dedicated_for_song").take k,
       (choreos.filter fun c => c.fit_type == some "compatible_generic").take k,
       choreos.filter fun c => !(c.fit_type == some "dedicated_for_song") &&
         !(c.fit_type == some "compatible_generic")) := by
  obtain ⟨c, hc, hfit⟩ := h
  have hmem : c ∈ choreos.filter fun x => x.fit_type == some "compatible_generic" :=
    List.mem_filter.mpr ⟨hc, by simp [hfit]⟩
  have hne : (firstPass choreos).2.1 ≠ [] := by
    rw [firstPass_eq_filter]
    exact List.ne_nil_of_mem hmem
  rw [split_choreographies_eq, splitPre_eq, if_neg (fun hh => hne hh.1),
    firstPass_eq_filter]
  simp [trimGroup_eq_take]

/-- Witness for C6 at a concrete one-item input. -/
theorem fallback_skipped_when_compatible_declared_witness :
    split_choreographies
        [⟨some 1, some "A", none, none, none, some "compatible_generic", none, [], none⟩]
        "Zed" 2 =
      ([],
       [⟨some 1, some "A", none, none, none, some "compatible_generic", none, [], none⟩],
       []) :=
  (fallback_skipped_when_compatible_declared
    [⟨some 1, some "A", none, none, none, some "compatible_generic", none, [], none⟩]
    "Zed" 2
    ⟨⟨some 1, some "A", none, none, none, some "compatible_generic", none, [], none⟩,
      by decide, by decide⟩).trans (by decide)

/-- C9: with an empty requested song title (whose lower-cased form is
empty) the fallback never triggers: for an input with no declared
compatible item the output is the first-pass fit-type partition followed
only by capping, and the compatible group stays empty. -/
theorem empty_song_title_skips_fallback (choreos : List Choreo) (k : Nat)
    (h : ∀ c ∈ choreos, c.fit_type ≠ some "compatible_generic") :
    split_choreographies choreos "" k =
      ((choreos.filter fun c => c.fit_type == some "dedicated_for_song").take k,
       [],
       choreos.filter fun c => !(c.fit_type == some "dedicated_for_song") &&
         !(c.fit_type == some "compatible_generic")) := by
  rw [split_choreographies_eq, splitPre_eq,
    if_neg (fun hh => hh.2 rfl), firstPass_eq_filter]
  have hcomp : (choreos.filter fun c => c.fit_type == some "compatible_generic") = [] := by
    rw [List.filter_eq_nil]
    intro c hc
    simp [h c hc]
  simp [trimGroup_eq_take, hcomp]

/-- Projection of `split_choreographies` onto the dedicated group. -/
theorem split_fst_eq (choreos : List Choreo) (t : String) (m : Nat) :
    (split_choreographies choreos t m).1 =
      trimGroup (splitPre choreos t m).1 m := rfl

/-- Projection of `split_choreographies` onto the compatible group. -/
theorem split_snd_eq (choreos : List Choreo) (t : String) (m : Nat) :
    (split_choreographies choreos t m).2.1 =
      trimGroup (splitPre choreos t m).2.1 m := rfl

/-- Projection of `split_choreographies` onto the other group. -/
theorem split_thd_eq (choreos : List Choreo) (t : String) (m : Nat) :
    (split_choreographies choreos t m).2.2 =
      (splitPre choreos t m).2.2 := rfl

/-- The dedicated group of `moveLoop` is a sublist of the input dedicated
group: the loop only removes dedicated items. -/
theorem moveLoop_ded_sublist (m : Nat) :
    ∀ (cands ded comp oth : List Choreo),
      ((moveLoop m cands ded comp oth).1).Sublist ded := by
  intro cands
  induction cands with
  | nil => intro ded comp oth; exact List.Sublist.refl _
  | cons c cands ih =>
    intro ded comp oth
    unfold moveLoop
    by_cases hm : comp.length ≥ m
    · rw [if_pos hm]
    · rw [if_neg hm]
      by_cases hd : c ∈ ded
      · rw [if_pos hd]
        exact (ih _ _ _).trans (List.erase_sublist c ded)
      · rw [if_neg hd]
        by_cases ho : c ∈ oth
        · rw [if_pos ho]; exact ih _ _ _
        · rw [if_neg ho]; exact ih _ _ _

/-- The other group of `moveLoop` is a sublist of the input other group. -/
theorem moveLoop_oth_sublist (m : Nat) :
    ∀ (cands ded comp oth : List Choreo),
      ((moveLoop m cands ded comp oth).2.2).Sublist oth := by
  intro cands
  induction cands with
  | nil => intro ded comp oth; exact List.Sublist.refl _
  | cons c cands ih =>
    intro ded comp oth
    unfold moveLoop
    by_cases hm : comp.length ≥ m
    · rw [if_pos hm]
    · rw [if_neg hm]
      by_cases hd : c ∈ ded
      · rw [if_pos hd]; exact ih _ _ _
      · rw [if_neg hd]
        by_cases ho : c ∈ oth
        · rw [if_pos ho]
          exact (ih _ _ _).trans (List.erase_sublist c oth)
        · rw [if_neg ho]; exact ih _ _ _

/-- The compatible group of `moveLoop` is the input compatible group
followed by the first candidates, up to the cap, each with its `fit_type`
overwritten. -/
theorem moveLoop_comp_eq (m : Nat) :
    ∀ (cands ded comp oth : List Choreo),
      (moveLoop m cands ded comp oth).2.1 =
        comp ++ (cands.take (m - comp.length)).map setFit := by
  intro cands
  induction cands with
  | nil => intro ded comp oth; simp [moveLoop]
  | cons c cands ih =>
    intro ded comp oth
    unfold moveLoop
    by_cases hm : comp.length ≥ m
    · rw [if_pos hm, show m - comp.length = 0 by omega]
      simp
    · rw [if_neg hm]
      have hstep : ∀ newded newoth : List Choreo,
          (moveLoop m cands newded (comp ++ [setFit c]) newoth).2.1 =
            comp ++ ((c :: cands).take (m - comp.length)).map setFit := by
        intro newded newoth
        rw [ih, show (comp ++ [setFit c]).length = comp.length + 1 by simp,
          show m - comp.length = (m - (comp.length + 1)) + 1 by omega,
          List.take_succ_cons]
        simp
      by_cases hd : c ∈ ded
      · rw [if_pos hd]; exact hstep _ _
      · rw [if_neg hd]
        by_cases ho : c ∈ oth
        · rw [if_pos ho]; exact hstep _ _
        · rw [if_neg ho]; exact hstep _ _

/-- Every item of the pre-trim dedicated group carries the dedicated fit
type. -/
theorem splitPre_ded_fit (choreos : List Choreo) (t : String) (m : Nat) :
    ∀ c ∈ (splitPre choreos t m).1,
      c.fit_type = some "dedicated_for_song" := by
  intro c hc
  rw [splitPre_eq] at hc
  by_cases hcond : (firstPass choreos).2.1 = [] ∧ pyLower t ≠ ""
  · rw [if_pos hcond] at hc
    have hded : c ∈ (firstPass choreos).1 :=
      (moveLoop_ded_sublist m _ _ _ _).subset hc
    rw [firstPass_eq_filter] at hded
    simpa using (List.mem_filter.mp hded).2
  · rw [if_neg hcond, firstPass_eq_filter] at hc
    simpa using (List.mem_filter.mp hc).2

/-- Every item of the pre-trim compatible group carries the compatible
fit type. -/
theorem splitPre_comp_fit (choreos : List Choreo) (t : String) (m : Nat) :
    ∀ c ∈ (splitPre choreos t m).2.1,
      c.fit_type = some "compatible_generic" := by
  intro c hc
  rw [splitPre_eq] at hc
  by_cases hcond : (firstPass choreos).2.1 = [] ∧ pyLower t ≠ ""
  · rw [if_pos hcond, moveLoop_comp_eq, hcond.1] at hc
    simp only [List.nil_append, List.mem_map] at hc
    obtain ⟨a, _, rfl⟩ := hc
    rfl
  · rw [if_neg hcond, firstPass_eq_filter] at hc
    simpa using (List.mem_filter.mp hc).2

/-- Every item of the pre-trim other group carries neither the dedicated
nor the compatible fit type. -/
theorem splitPre_oth_fit (choreos : List Choreo) (t : String) (m : Nat) :
    ∀ c ∈ (splitPre choreos t m).2.2,
      c.fit_type ≠ some "dedicated_for_song" ∧
      c.fit_type ≠ some "compatible_generic" := by
  intro c hc
  rw [splitPre_eq] at hc
  by_cases hcond : (firstPass choreos).2.1 = [] ∧ pyLower t ≠ ""
  · rw [if_pos hcond] at hc
    have hoth : c ∈ (firstPass choreos).2.2 :=
      (moveLoop_oth_sublist m _ _ _ _).subset hc
    rw [firstPass_eq_filter] at hoth
    have h2 := (List.mem_filter.mp hoth).2
    simp only [Bool.and_eq_true, Bool.not_eq_true', beq_eq_false_iff_ne] at h2
    exact h2
  · rw [if_neg hcond, firstPass_eq_filter] at hc
    have h2 := (List.mem_filter.mp hc).2
    simp only [Bool.and_eq_true, Bool.not_eq_true', beq_eq_false_iff_ne] at h2
    exact h2

/-- Every item of the returned dedicated group carries the dedicated fit
type. -/
theorem split_ded_fit (choreos : List Choreo) (t : String) (k : Nat) :
    ∀ c ∈ (split_choreographies choreos t k).1,
      c.fit_type = some "dedicated_for_song" := by
  intro c hc
  rw [split_fst_eq, trimGroup_eq_take] at hc
  exact splitPre_ded_fit choreos t k c ((List.take_sublist _ _).subset hc)

/-- Every item of the returned compatible group carries the compatible
fit type. -/
theorem split_comp_fit (choreos : List Choreo) (t : String) (k : Nat) :
    ∀ c ∈ (split_choreographies choreos t k).2.1,
      c.fit_type = some "compatible_generic" := by
  intro c hc
  rw [split_snd_eq, trimGroup_eq_take] at hc
  exact splitPre_comp_fit choreos t k c ((List.take_sublist _ _).subset hc)

/-- Every item of the returned other group carries neither special fit
type. -/
theorem split_oth_fit (choreos : List Choreo) (t : String) (k : Nat) :
    ∀ c ∈ (split_choreographies choreos t k).2.2,
      c.fit_type ≠ some "dedicated_for_song" ∧
      c.fit_type ≠ some "compatible_generic" := by
  intro c hc
  rw [split_thd_eq] at hc
  exact splitPre_oth_fit choreos t k c hc

/-- C10: after classification including the fallback heuristic, every
item in the returned dedicated group has fit_type `dedicated_for_song`
and every item in the returned compatible group has fit_type
`compatible_generic` (the heuristic overwrites the fit_type of each item
it moves). -/
theorem returned_groups_fit_type_invariant (choreos : List Choreo)
    (song_title : String) (k : Nat) :
    (∀ c ∈ (split_choreographies choreos song_title k).1,
        c.fit_type = some "dedicated_for_song") ∧
    (∀ c ∈ (split_choreographies choreos song_title k).2.1,
        c.fit_type = some "compatible_generic") :=
  ⟨split_ded_fit choreos song_title k, split_comp_fit choreos song_title k⟩

/-- Witness for C10: the item moved by the fallback on a concrete input
is a member of the returned compatible group, so its fit_type was
overwritten to compatible_generic. -/
theorem returned_groups_fit_type_invariant_witness :
    (setFit ⟨some 1, some "Alpha", none, none, none, none, none, [], none⟩).fit_type =
      some "compatible_generic" :=
  (returned_groups_fit_type_invariant
    [⟨some 1, some "Alpha", none, none, none, none, none, [], none⟩] "Zed" 3).2
    (setFit ⟨some 1, some "Alpha", none, none, none, none, none, [], none⟩)
    (by decide)

/-- C5 counterexample: an `other`-group item whose name does mention the
song title (case-insensitively) is nevertheless reclassified into the
compatible group — the heuristic's substring filter is applied only to the
dedicated group, while all `other` items become candidates. -/
theorem other_item_mentioning_song_reclassified :
    pyIn (pyLower "Zed")
        (nameReasonText
          ⟨some 1, some "Zed Dance", none, none, none, none, none, [], some "b"⟩) = true ∧
    (split_choreographies
        [⟨some 1, some "Zed Dance", none, none, none, none, none, [], some "b"⟩]
        "Zed" 3).2.1 =
      [setFit ⟨some 1, some "Zed Dance", none, none, none, none, none, [], some "b"⟩] :=
  ⟨by decide, by decide⟩

/-- C5 (amended): when the input declares no compatible item and the
lower-cased song title is non-empty, the returned compatible group
consists exactly of the dedicated items whose name-and-reason text does
not contain the title (case-insensitive), followed by all items of the
other group regardless of their text, in input order, truncated to the
cap, each with its fit_type overwritten. -/
theorem fallback_compatible_characterization (choreos : List Choreo)
    (song_title : String) (k : Nat)
    (hcomp : choreos.filter (fun c => c.fit_type == some "compatible_generic") = [])
    (htitle : pyLower song_title ≠ "") :
    (split_choreographies choreos song_title k).2.1 =
      ((((choreos.filter fun c => c.fit_type == some "dedicated_for_song").filter
          fun c => !(pyIn (pyLower song_title) (nameReasonText c))) ++
        (choreos.filter fun c => !(c.fit_type == some "dedicated_for_song") &&
          !(c.fit_type == some "compatible_generic"))).take k).map setFit := by
  have hcond : (firstPass choreos).2.1 = [] ∧ pyLower song_title ≠ "" := by
    rw [firstPass_eq_filter]
    exact ⟨hcomp, htitle⟩
  rw [split_snd_eq, splitPre_eq, if_pos hcond, trimGroup_eq_take,
    moveLoop_comp_eq, hcond.1]
  rw [List.nil_append, List.length_nil, Nat.sub_zero]
  rw [List.take_of_length_le (by rw [List.length_map, List.length_take]; omega)]
  rw [firstPass_eq_filter]

/-- Witness for C5 at a concrete one-item input. -/
theorem fallback_compatible_characterization_witness :
    (split_choreographies
        [⟨some 1, some "Alpha", none, none, none, none, none, [], none⟩]
        "Zed" 2).2.1 =
      [setFit ⟨some 1, some "Alpha", none, none, none, none, none, [], none⟩] :=
  (fallback_compatible_characterization
    [⟨some 1, some "Alpha", none, none, none, none, none, [], none⟩] "Zed" 2
    (by decide) (by decide)).trans (by decide)

/-- The other-phase of the moving loop preserves the total number of
items across the three groups: each moved candidate is removed from the
other group and appended (with overwritten fit_type) to the compatible
group. -/
theorem moveLoop_sum_other (m : Nat) :
    ∀ (oc ded comp oth : List Choreo),
      (∀ x ∈ ded, x.fit_type = some "dedicated_for_song") →
      (∀ x ∈ oc, x.fit_type ≠ some "dedicated_for_song") →
      (∀ x : Choreo, oc.count x ≤ oth.count x) →
      (moveLoop m oc ded comp oth).1.length +
        (moveLoop m oc ded comp oth).2.1.length +
        (moveLoop m oc ded comp oth).2.2.length =
        ded.length + comp.length + oth.length := by
  intro oc
  induction oc with
  | nil => intro ded comp oth _ _ _; rfl
  | cons c oc ih =>
    intro ded comp oth hded hoc hcount
    by_cases hm : comp.length ≥ m
    · unfold moveLoop; rw [if_pos hm]
    · have hcded : c ∉ ded := fun hmem =>
        hoc c (List.mem_cons_self c oc) (hded c hmem)
      have hcoth : c ∈ oth := by
        have h1 := hcount c
        rw [List.count_cons_self] at h1
        exact List.count_pos_iff.mp (by omega)
      have herase : (oth.erase c).length = oth.length - 1 :=
        List.length_erase_of_mem hcoth
      have hothpos : 0 < oth.length :=
        List.length_pos.2 (List.ne_nil_of_mem hcoth)
      have hrec := ih ded (comp ++ [setFit c]) (oth.erase c) hded
        (fun x hx => hoc x (List.mem_cons_of_mem c hx))
        (fun x => by
          by_cases hxc : x = c
          · subst hxc
            rw [List.count_erase_self]
            have h1 := hcount x
            rw [List.count_cons_self] at h1
            omega
          · rw [List.count_erase_of_ne hxc]
            have h1 := hcount x
            rw [List.count_cons_of_ne hxc] at h1
            exact h1)
      unfold moveLoop
      rw [if_neg hm, if_neg hcded, if_pos hcoth, hrec]
      simp only [List.length_append, List.length_cons, List.length_nil, herase]
      omega

/-- The full moving loop (dedicated-derived candidates followed by
other-derived candidates) preserves the total number of items across the
three groups. -/
theorem moveLoop_sum_ded (m : Nat) :
    ∀ (dc oc ded comp oth : List Choreo),
      (∀ x ∈ dc, x.fit_type = some "dedicated_for_song") →
      (∀ x ∈ ded, x.fit_type = some "dedicated_for_song") →
      (∀ x ∈ oc, x.fit_type ≠ some "dedicated_for_song") →
      (∀ x : Choreo, dc.count x ≤ ded.count x) →
      (∀ x : Choreo, oc.count x ≤ oth.count x) →
      (moveLoop m (dc ++ oc) ded comp oth).1.length +
        (moveLoop m (dc ++ oc) ded comp oth).2.1.length +
        (moveLoop m (dc ++ oc) ded comp oth).2.2.length =
        ded.length + comp.length + oth.length := by
  intro dc
  induction dc with
  | nil =>
    intro oc ded comp oth _ hded hoc _ hocount
    rw [List.nil_append]
    exact moveLoop_sum_other m oc ded comp oth hded hoc hocount
  | cons c dc ih =>
    intro oc ded comp oth hdc hded hoc hdcount hocount
    rw [List.cons_append]
    by_cases hm : comp.length ≥ m
    · unfold moveLoop; rw [if_pos hm]
    · have hcded : c ∈ ded := by
        have h1 := hdcount c
        rw [List.count_cons_self] at h1
        exact List.count_pos_iff.mp (by omega)
      have herase : (ded.erase c).length = ded.length - 1 :=
        List.length_erase_of_mem hcded
      have hdedpos : 0 < ded.length :=
        List.length_pos.2 (List.ne_nil_of_mem hcded)
      have hrec := ih oc (ded.erase c) (comp ++ [setFit c]) oth
        (fun x hx => hdc x (List.mem_cons_of_mem c hx))
        (fun x hx => hded x ((List.erase_sublist c ded).subset hx))
        hoc
        (fun x => by
          by_cases hxc : x = c
          · subst hxc
            rw [List.count_erase_self]
            have h1 := hdcount x
            rw [List.count_cons_self] at h1
            omega
          · rw [List.count_erase_of_ne hxc]
            have h1 := hdcount x
            rw [List.count_cons_of_ne hxc] at h1
            exact h1)
        hocount
      unfold moveLoop
      rw [if_neg hm, if_pos hcded, hrec]
      simp only [List.length_append, List.length_cons, List.length_nil, herase]
      omega

/-- The pre-trim stage preserves the input length: the three group
lengths sum to the length of the input list. -/
theorem splitPre_sum (choreos : List Choreo) (t : String) (k : Nat) :
    (splitPre choreos t k).1.length + (splitPre choreos t k).2.1.length +
      (splitPre choreos t k).2.2.length = choreos.length := by
  rw [splitPre_eq]
  by_cases hcond : (firstPass choreos).2.1 = [] ∧ pyLower t ≠ ""
  · rw [if_pos hcond]
    have hsum := moveLoop_sum_ded k
      ((firstPass choreos).1.filter fun c =>
        !(pyIn (pyLower t) (nameReasonText c)))
      (firstPass choreos).2.2
      (firstPass choreos).1 (firstPass choreos).2.1 (firstPass choreos).2.2
      (fun x hx => by
        have hx1 : x ∈ (firstPass choreos).1 :=
          (List.filter_sublist _).subset hx
        rw [firstPass_eq_filter] at hx1
        simpa using (List.mem_filter.mp hx1).2)
      (fun x hx => by
        rw [firstPass_eq_filter] at hx
        simpa using (List.mem_filter.mp hx).2)
      (fun x hx => by
        rw [firstPass_eq_filter] at hx
        have h2 := (List.mem_filter.mp hx).2
        simp only [Bool.and_eq_true, Bool.not_eq_true', beq_eq_false_iff_ne] at h2
        exact h2.1)
      (fun x => (List.filter_sublist _).count_le x)
      (fun x => Nat.le_refl _)
    rw [hsum]
    exact firstPass_sum choreos
  · rw [if_neg hcond]
    exact firstPass_sum choreos

/-- C2 counterexample: with cap 1, the second dedicated item of a
three-item input appears in none of the three returned groups — it is
dropped by the final trimming. -/
theorem dropped_item_in_no_group :
    (⟨some 2, some "Beta", none, none, none, some "dedicated_for_song", none, [], none⟩ : Choreo) ∈
      ([⟨some 1, some "Alpha", none, none, none, some "dedicated_for_song", none, [], none⟩,
        ⟨some 2, some "Beta", none, none, none, some "dedicated_for_song", none, [], none⟩,
        ⟨some 3, some "Gamma", none, none, none, some "compatible_generic", none, [], none⟩] : List Choreo) ∧
    ¬ ((⟨some 2, some "Beta", none, none, none, some "dedicated_for_song", none, [], none⟩ : Choreo) ∈
        (split_choreographies
          [⟨some 1, some "Alpha", none, none, none, some "dedicated_for_song", none, [], none⟩,
           ⟨some 2, some "Beta", none, none, none, some "dedicated_for_song", none, [], none⟩,
           ⟨some 3, some "Gamma", none, none, none, some "compatible_generic", none, [], none⟩]
          "Zed" 1).1 ∨
      (⟨some 2, some "Beta", none, none, none, some "dedicated_for_song", none, [], none⟩ : Choreo) ∈
        (split_choreographies
          [⟨some 1, some "Alpha", none, none, none, some "dedicated_for_song", none, [], none⟩,
           ⟨some 2, some "Beta", none, none, none, some "dedicated_for_song", none, [], none⟩,
           ⟨some 3, some "Gamma", none, none, none, some "compatible_generic", none, [], none⟩]
          "Zed" 1).2.1 ∨
      (⟨some 2, some "Beta", none, none, none, some "dedicated_for_song", none, [], none⟩ : Choreo) ∈
        (split_choreographies
          [⟨some 1, some "Alpha", none, none, none, some "dedicated_for_song", none, [], none⟩,
           ⟨some 2, some "Beta", none, none, none, some "dedicated_for_song", none, [], none⟩,
           ⟨some 3, some "Gamma", none, none, none, some "compatible_generic", none, [], none⟩]
          "Zed" 1).2.2) :=
  ⟨by decide, by decide⟩

/-- C2 (amended): classification is a total disjoint partition before the
final trimming — the three pre-trim group lengths sum to the input length
(each moved item counted once, with its fit_type overwritten) — and the
three returned groups are pairwise disjoint; the final trimming of the
dedicated and compatible groups may drop items, so an input item can
appear in none of the returned groups. -/
theorem split_partition_pre_trim (choreos : List Choreo)
    (song_title : String) (k : Nat) :
    ((splitPre choreos song_title k).1.length +
      (splitPre choreos song_title k).2.1.length +
      (splitPre choreos song_title k).2.2.length = choreos.length) ∧
    (∀ x ∈ (split_choreographies choreos song_title k).1,
      x ∉ (split_choreographies choreos song_title k).2.1 ∧
      x ∉ (split_choreographies choreos song_title k).2.2) ∧
    (∀ x ∈ (split_choreographies choreos song_title k).2.1,
      x ∉ (split_choreographies choreos song_title k).2.2) := by
  refine ⟨splitPre_sum choreos song_title k, ?_, ?_⟩
  · intro x hx
    have h1 := split_ded_fit choreos song_title k x hx
    constructor
    · intro hx2
      have h2 := split_comp_fit choreos song_title k x hx2
      rw [h1] at h2
      exact absurd (Option.some.inj h2) (by decide)
    · intro hx3
      exact (split_oth_fit choreos song_title k x hx3).1 h1
  · intro x hx
    have h2 := split_comp_fit choreos song_title k x hx
    intro hx3
    exact (split_oth_fit choreos song_title k x hx3).2 h2

/-- Witness for C2 (amended) at a concrete one-item input: the pre-trim
group lengths sum to the input length. -/
theorem split_partition_pre_trim_witness :
    (splitPre [⟨some 1, some "Alpha", none, none, none, none, none, [], none⟩]
        "Zed" 1).1.length +
      (splitPre [⟨some 1, some "Alpha", none, none, none, none, none, [], none⟩]
        "Zed" 1).2.1.length +
      (splitPre [⟨some 1, some "Alpha", none, none, none, none, none, [], none⟩]
        "Zed" 1).2.2.length = 1 :=
  (split_partition_pre_trim
    [⟨some 1, some "Alpha", none, none, none, none, none, [], none⟩] "Zed" 1).1

/-- Witness for C9 at a concrete one-item input. -/
theorem empty_song_title_skips_fallback_witness :
    split_choreographies
        [⟨some 1, some "Alpha", none, none, none, none, none, [], none⟩] "" 3 =
      ([], [],
       [⟨some 1, some "Alpha", none, none, none, none, none, [], none⟩]) :=
  (empty_song_title_skips_fallback
    [⟨some 1, some "Alpha", none, none, none, none, none, [], none⟩] 3
    (by decide)).trans (by decide)
/-- Embeds `build_prompt` of src/app.py (lines 36-182): the pure prompt
builder.  Python truthiness of the optional `artist` and `region` strings
(both `None` and the empty string are falsy) is modelled explicitly;
f-string interpolation becomes string concatenation. -/
def build_prompt (song_title : String) (artist : Option String)
    (level : String) (region : Option String) (max_results : Nat) : String :=
  let artist_part :=
    match artist with
    | some a => if a = "" then "" else " by \"" ++ a ++ "\""
    | none => ""
  let region_part :=
    match region with
    | some r => if r = "" then "any" else r
    | none => "any"
  let total_max := max_results * 2
  "You are Boots to Beats, an expert line dance assistant.

You help dancers figure out which line dance choreographies go with specific songs.

USER REQUEST:
- Song: \"" ++
song_title ++
"\"" ++
artist_part ++
"
- Requested level: " ++
level ++
"
- Requested region: " ++
region_part ++
"
- Max choreographies per group: " ++
toString max_results ++
"

MAIN GOAL:
1) Give a brief, factual description of the input song that is useful for line dancers
   (tempo/BPM, rhythm, style, feel).
2) Suggest several different line dance choreographies that a DJ or instructor could
   reasonably use when this song is playing.

There are TWO types of suitable choreographies:

1) Song-specific choreographies (\"dedicated_for_song\"):
   - Dances that were clearly choreographed specifically for this input song
     (title or description strongly links them to this exact track), OR
   - Dances that are widely recognised in line dance communities as THE standard
     line dance for this song.
   - These must have fit_type = \"dedicated_for_song\".

2) Musically compatible choreographies from other songs (\"compatible_generic\"):
   - Dances that were originally choreographed for OTHER songs, but whose music
     (tempo/BPM, rhythm, style) is a good match for this input song.
   - Typical examples in principle: a popular cha-cha line dance written for
     \"Señorita Margarita\" used as a generic cha-cha for other 100–105 BPM
     country/Latin tracks; or a slow country two-step dance written for one ballad
     but usable on other songs with the same feel.
   - These dances do NOT need to mention the input song at all.
   - In the \"reason\" field you MUST say something like:
       \"Originally written for <other song> at <BPM> <style>; suggested here
        because it matches the tempo and feel of \x27" ++
song_title ++
"\x27.\"
   - These must have fit_type = \"compatible_generic\".

TASK STEP 1 – SONG ANALYSIS:
- Use web search to determine:
  - The approximate tempo/BPM of the input song.
  - The time signature (e.g. 4/4, 3/4).
  - The main dance style / rhythm (e.g. cha-cha, waltz, nightclub, two-step, swing).
  - A short description of the musical feel (e.g. \"relaxed mid-tempo country ballad\").
  - Any commonly referenced social/partner/line-dance styles used with this song.
- Summarise this in a compact, dancer-friendly description.

TASK STEP 2 – CHOREOGRAPHY SEARCH:
1. Use web search to:
   - Find dedicated_for_song choreographies for this exact song.
   - Find popular line dances for other songs with similar tempo/rhythm/style that
     would reasonably work as alternative dances for this song.
2. Prefer choreographies that:
   - Explicitly mention the song and/or artist in the title or description
     (for dedicated_for_song), OR
   - Are well-known line dances whose original music is very similar in tempo/rhythm
     to the input song (for compatible_generic).
   - Match the requested level as closely as possible: Beginner, High Beginner,
     Improver, Intermediate, Advanced, or Any.
   - Are suitable or commonly used in the requested region (if inferable).
3. Aim for DIVERSITY:
   - Show different dances (different choreographers or noticeably different patterns).
   - Do NOT return several entries for the same choreography just because it has multiple
     videos or step-sheet sites.
4. Exclude:
   - General news articles about the song.
   - Non-dance content.
   - Choreographies for completely different styles (e.g. phrased advanced waltz for
     a simple mid-tempo cha-cha) unless clearly justified.

GROUPING & COUNTS:
- Treat the maximum number of dedicated_for_song choreographies as " ++
toString max_results ++
".
- Treat the maximum number of compatible_generic choreographies as " ++
toString max_results ++
".
- Your ideal target is to return approximately:
    * " ++
toString max_results ++
" items with fit_type = \"dedicated_for_song\", and
    * " ++
toString max_results ++
" items with fit_type = \"compatible_generic\".
- If both types exist in reality, you should NOT return 0 for one type.
  It is better to return fewer than " ++
toString max_results ++
" dedicated_for_song items and include
  some compatible_generic dances than to return only dedicated_for_song dances.
- The combined length of \"choreographies\" may be up to " ++
toString total_max ++
", but never more.
- If you truly cannot identify ANY reasonable compatible_generic dances, you may return
  only dedicated_for_song, but say this explicitly in the \"reason\" fields.

OUTPUT FORMAT (IMPORTANT):
Return ONLY a single JSON object, no extra text.

The top-level JSON object must have these keys:
- \"song\" (string)
- \"artist\" (string)
- \"requested_level\" (string)
- \"requested_region\" (string)
- \"song_info\" (object)
- \"choreographies\" (array)

The \"song_info\" object must have these keys:
- \"title\" (string)
- \"artist\" (string)
- \"bpm\" (number or string, approximate tempo in BPM)
- \"tempo_label\" (string, e.g. \"slow\", \"mid-tempo\", \"up-tempo\")
- \"style\" (string, e.g. \"country cha-cha\", \"nightclub two-step\", \"pop waltz\")
- \"time_signature\" (string, e.g. \"4/4\", \"3/4\")
- \"dance_feel\" (string, short phrase describing feel for dancers)
- \"typical_dance_styles\" (array of strings, e.g. [\"line dance\", \"two-step\"])
- \"summary\" (string, 2–3 sentence summary oriented to dancers)
- \"sources\" (array of strings, optional, URLs used to infer BPM/style)

Each item in \"choreographies\" must be an object with these keys:
- \"rank\" (integer, starting at 1 for best overall match)
- \"name\" (string, name of the choreography)
- \"estimated_level\" (string)
- \"estimated_region\" (string)
- \"type\" (string, exactly one of: \"step_sheet\", \"tutorial_video\", \"article\", \"other\")
- \"fit_type\" (string, exactly one of: \"dedicated_for_song\", \"compatible_generic\")
- \"url\" (string, main link for learning that choreography)
- \"extra_sources\" (array of strings, optional, other helpful links)
- \"reason\" (string, short explanation why this is a good match)

DIVERSITY & DEDUPLICATION RULES FOR \"choreographies\":
- Never include two items that are essentially the same choreography.
  Treat dances as the same if they have the same name and choreographer, or clearly
  describe the same steps, even if they are hosted on different sites/videos.
- If you find multiple URLs for the same choreography, create ONE item in \"choreographies\":
  put the best/most informative link in \"url\" and all other useful links into \"extra_sources\".
- If you can only find fewer DISTINCT choreographies in a group than the requested maximum,
  just return the smaller number and do NOT pad the list with duplicates.

The JSON must be syntactically valid (no trailing commas, no comments)."

/-- `containsSub` decides list infix containment. -/
theorem containsSub_eq_true_iff (hay needle : List Char) :
    containsSub hay needle = true ↔ needle <:+: hay := by
  induction hay with
  | nil => cases needle <;> simp [containsSub, List.infix_nil]
  | cons a t ih =>
    simp [containsSub, Bool.or_eq_true, List.isPrefixOf_iff_prefix, ih,
      List.infix_cons_iff]

/-- Infix containment is preserved by prepending a list. -/
theorem infix_append_of_infix {n t : List Char} (s : List Char)
    (h : n <:+: t) : n <:+: s ++ t := by
  obtain ⟨u, v, rfl⟩ := h
  exact ⟨s ++ u, v, by simp⟩

/-- A string whose character data is an infix of the haystack's data is
found by the Python containment test. -/
theorem pyIn_of_infix {n h : String} (hinf : n.data <:+: h.data) :
    pyIn n h = true := (containsSub_eq_true_iff h.data n.data).mpr hinf

/-- A label-plus-value needle sits inside a haystack whose head chunk
ends with the label and whose tail starts with the value. -/
theorem infix_label_cap (s lab tok rest : List Char) :
    (lab ++ tok) <:+: s ++ lab ++ (tok ++ rest) :=
  ⟨s, rest, by simp⟩

/-- C7: for every request with per-group cap `k` between 1 and 5, the
prompt text built by `build_prompt` contains the phrase
`Max choreographies per group: ` followed immediately by the decimal
literal of `k` — the value of `k` is stated as the per-group cap, not
merely present somewhere in the static text. -/
theorem build_prompt_contains_cap (song_title : String)
    (artist : Option String) (level : String) (region : Option String)
    (k : Nat) (h1 : 1 ≤ k) (h2 : k ≤ 5) :
    pyIn ("Max choreographies per group: " ++ toString k)
      (build_prompt song_title artist level region k) = true := by
  apply pyIn_of_infix
  unfold build_prompt
  simp only [String.data_append, List.append_assoc]
  apply infix_append_of_infix
  apply infix_append_of_infix
  apply infix_append_of_infix
  apply infix_append_of_infix
  apply infix_append_of_infix
  apply infix_append_of_infix
  apply infix_append_of_infix
  apply infix_append_of_infix
  exact infix_label_cap ("\n- ".data)
    ("Max choreographies per group: ".data) ((toString k).data) _

/-- Witness for C7 at a concrete request with cap 3. -/
theorem build_prompt_contains_cap_witness :
    pyIn ("Max choreographies per group: " ++ toString 3)
      (build_prompt "Texas" (some "Beyonce") "Beginner" none 3) = true :=
  build_prompt_contains_cap "Texas" (some "Beyonce") "Beginner" none 3
    (by decide) (by decide)

/-- C8: the prompt builder is a deterministic, total, pure function of
its five inputs: equal inputs always produce the same output string, with
no failure (totality is by construction of `build_prompt`). -/
theorem build_prompt_deterministic (s1 s2 : String) (a1 a2 : Option String)
    (l1 l2 : String) (r1 r2 : Option String) (k1 k2 : Nat)
    (hs : s1 = s2) (ha : a1 = a2) (hl : l1 = l2) (hr : r1 = r2)
    (hk : k1 = k2) :
    build_prompt s1 a1 l1 r1 k1 = build_prompt s2 a2 l2 r2 k2 := by
  rw [hs, ha, hl, hr, hk]

/-- Witness for C8 at concrete equal inputs. -/
theorem build_prompt_deterministic_witness :
    build_prompt "X" none "Beginner" none 3 =
      build_prompt "X" none "Beginner" none 3 :=
  build_prompt_deterministic "X" "X" none none "Beginner" "Beginner"
    none none 3 3 rfl rfl rfl rfl rfl
